import Mathlib

set_option maxHeartbeats 1000000

/- Shallow embedding of src/SkyboxConverter.py: the face-resolution and
   atlas-compositing pipeline (find_cubemap_files, the transform tables and
   stitch_cubemap_rotated).  Images are modelled as rasters carrying a total
   pixel function; the PIL operations used by the program (Image.new, paste,
   rotate by right angles with expand=False, transpose, resize) are given
   their exact pixel semantics.  The resampled content of resize to a
   genuinely different size models the library kernel only up to the facts
   the development uses: output dimensions, and that a constant-colour input
   resamples to the same constant (true of every normalised kernel, LANCZOS
   included); a same-size resize returns the image unchanged, as Pillow does. -/

abbrev Pixel := Nat × Nat × Nat × Nat

def alphaOf (p : Pixel) : Nat := p.2.2.2

structure Raster where
  w : Nat
  h : Nat
  pix : Nat → Nat → Pixel

/- The six canonical cubemap faces. -/
inductive FaceId
  | up | down | left | right | front | back
deriving DecidableEq

/- Per-face source format recorded by the conversion stage:
   'exr' for .exr sources, 'default' for everything else. -/
inductive SrcFmt
  | exr | dflt
deriving DecidableEq

/- The PIL transpose constants used by the script. -/
inductive FlipConst
  | flipLR | flipTB | rot180
deriving DecidableEq

/- Image.new('RGBA', (w, h), c) -/
def newImg (w h : Nat) (c : Pixel) : Raster := ⟨w, h, fun _ _ => c⟩

/- base.paste(img, pos).  The program only pastes cells that lie inside the
   canvas, so clipping never fires and is not modelled. -/
def pasteImg (base img : Raster) (pos : Nat × Nat) : Raster :=
  { w := base.w, h := base.h,
    pix := fun x y =>
      if pos.1 ≤ x ∧ x < pos.1 + img.w ∧ pos.2 ≤ y ∧ y < pos.2 + img.h then
        img.pix (x - pos.1) (y - pos.2)
      else base.pix x y }

/- Image.rotate(deg, expand=False), counter-clockwise degrees.  Pillow
   special-cases right angles as exact pixel permutations; the program only
   rotates square images (every slot image is unit×unit at that point). -/
def rotateImg (deg : Int) (r : Raster) : Raster :=
  if deg = 180 ∨ deg = -180 then
    ⟨r.w, r.h, fun x y => r.pix (r.w - 1 - x) (r.h - 1 - y)⟩
  else if deg = 90 ∨ deg = -270 then
    ⟨r.w, r.h, fun x y => r.pix (r.w - 1 - y) x⟩
  else if deg = -90 ∨ deg = 270 then
    ⟨r.w, r.h, fun x y => r.pix y (r.h - 1 - x)⟩
  else r

/- Image.transpose(c) -/
def transposeImg : FlipConst → Raster → Raster
  | .flipLR, r => ⟨r.w, r.h, fun x y => r.pix (r.w - 1 - x) y⟩
  | .flipTB, r => ⟨r.w, r.h, fun x y => r.pix x (r.h - 1 - y)⟩
  | .rot180, r => ⟨r.w, r.h, fun x y => r.pix (r.w - 1 - x) (r.h - 1 - y)⟩

/- Image.resize((w2, h2), LANCZOS).  Pillow returns the image unchanged
   (a copy) when the requested size already matches. -/
def resizeImg (w2 h2 : Nat) (r : Raster) : Raster :=
  if r.w = w2 ∧ r.h = h2 then r
  else ⟨w2, h2, fun x y => r.pix (x * r.w / w2) (y * r.h / h2)⟩

/- One transform-table entry: (source face, rotation degrees CCW, flip). -/
abbrev Rule := FaceId × Int × Option FlipConst

/- EXR_TRANSFORMS -/
def EXR_TRANSFORMS : List (FaceId × Rule) :=
  [(.up, (.up, -90, none)),
   (.down, (.down, -90, none)),
   (.left, (.front, 0, none)),
   (.front, (.right, -90, none)),
   (.right, (.back, 180, none)),
   (.back, (.left, 90, none))]

/- DEFAULT_TRANSFORMS -/
def DEFAULT_TRANSFORMS : List (FaceId × Rule) :=
  [(.up, (.up, 0, none)),
   (.down, (.down, 0, none)),
   (.left, (.back, 0, none)),
   (.front, (.right, 0, none)),
   (.right, (.front, 0, none)),
   (.back, (.left, 0, none))]

/- HL2_TF2_DOME_TRANSFORMS -/
def HL2_TF2_DOME_TRANSFORMS : List (FaceId × Rule) :=
  [(.up, (.up, 0, none)),
   (.down, (.down, 0, none)),
   (.left, (.back, 0, none)),
   (.front, (.right, 0, none)),
   (.right, (.front, 0, none)),
   (.back, (.left, 0, none))]

/- Python dict lookup on a face-keyed association list. -/
def lookupF {α : Type} : List (FaceId × α) → FaceId → Option α
  | [], _ => none
  | (k, v) :: rest, f => if k = f then some v else lookupF rest f

/- transform_map.get(target_slot, (target_slot, 0, None)) -/
def ruleOf (tbl : List (FaceId × Rule)) (slot : FaceId) : Rule :=
  (lookupF tbl slot).getD (slot, 0, none)

def MIN_SIZE : Nat := 64

/- w >= MIN_SIZE and h >= MIN_SIZE -/
def validR (r : Raster) : Bool :=
  decide (MIN_SIZE ≤ r.w) && decide (MIN_SIZE ≤ r.h)

/- Iteration order of the six-face dict (FACE_KEYWORDS insertion order).
   Python rebuilds the resolver result from a set, so the run-time order is
   unspecified; no claim below depends on this order. -/
def faceOrder : List FaceId := [.back, .up, .front, .right, .left, .down]

/- valid_sizes: the sizes of the faces not below MIN_SIZE. -/
def validSizes (images : FaceId → Raster) : List (Nat × Nat) :=
  faceOrder.filterMap fun f =>
    if validR (images f) then some ((images f).w, (images f).h) else none

/- max(valid_sizes, key=lambda x: x[0]*x[1]): the first maximal element
   wins, as in Python. -/
def maxArea (s0 : Nat × Nat) (rest : List (Nat × Nat)) : Nat × Nat :=
  rest.foldl (fun best x => if best.1 * best.2 < x.1 * x.2 then x else best) s0

/- Size and topology inference of stitch_cubemap_rotated.  Returns
   (reference width, reference height, is_dome_map); none models the
   ValueError("No valid image size found.") abort.  The float aspect-ratio
   comparisons 1.9 < w/h < 2.1 are embedded exactly as
   19*h < 10*w ∧ 10*w < 21*h. -/
def sizeInfer (images : FaceId → Raster) : Option (Nat × Nat × Bool) :=
  match validSizes images with
  | [] => none
  | s0 :: rest =>
    let fw := (images .front).w
    let fh := (images .front).h
    let ref := if fw < MIN_SIZE ∨ fh < MIN_SIZE then maxArea s0 rest else (fw, fh)
    some (ref.1, ref.2, decide (19 * ref.2 < 10 * ref.1 ∧ 10 * ref.1 < 21 * ref.2))

/- The printed aspect-ratio classification (dome / square / warning). -/
inductive Shape
  | dome2to1 | square | unusual
deriving DecidableEq

def classifyShape (w h : Nat) : Shape :=
  if 19 * h < 10 * w ∧ 10 * w < 21 * h then .dome2to1
  else if 9 * h < 10 * w ∧ 10 * w < 11 * h then .square
  else .unusual

/- The four slots treated as dome-map horizontal faces. -/
def HORIZ_SLOTS : List FaceId := [.left, .front, .right, .back]

/- Per-slot transform-table selection: exr beats dome beats default, with
   the redundant `source_format != 'exr'` conjunct of the Python elif. -/
def chooseMap (fmt : FaceId → SrcFmt) (isDome : Bool) (slot : FaceId) :
    List (FaceId × Rule) :=
  if fmt slot = .exr then EXR_TRANSFORMS
  else if isDome ∧ fmt slot ≠ .exr then HL2_TF2_DOME_TRANSFORMS
  else DEFAULT_TRANSFORMS

/- The black unit-size square used for placeholders and dome backgrounds. -/
def blackSq (u : Nat) : Raster := newImg u u (0, 0, 0, 255)

/- Step 2a of the slot loop: placeholder substitution (the code tests only
   the width, image_to_paste.size[0]), or dome composition of a horizontal
   face, or the standard resize to the 1:1 slot size. -/
def preSlot (images : FaceId → Raster) (fmt : FaceId → SrcFmt)
    (u : Nat) (isDome : Bool) (slot : FaceId) : Raster :=
  let rule := ruleOf (chooseMap fmt isDome slot) slot
  let img := images rule.1
  if img.w < MIN_SIZE then
    blackSq u
  else if isDome ∧ slot ∈ HORIZ_SLOTS then
    pasteImg (blackSq u) (resizeImg u (u / 2) img) (0, 0)
  else
    resizeImg u u img

/- `if rotation_degrees != 0: image.rotate(...)` -/
def rotStep (deg : Int) (r : Raster) : Raster :=
  if deg ≠ 0 then rotateImg deg r else r

/- `if flip is not None: image.transpose(flip)` -/
def flipStep : Option FlipConst → Raster → Raster
  | some fl, r => transposeImg fl r
  | none, r => r

/- Processing of one target slot: rule lookup, step 2a, then rotation,
   then flip (step 2b applies the rotation before the flip). -/
def slotImage (images : FaceId → Raster) (fmt : FaceId → SrcFmt)
    (u : Nat) (isDome : Bool) (slot : FaceId) : Raster :=
  let rule := ruleOf (chooseMap fmt isDome slot) slot
  flipStep rule.2.2 (rotStep rule.2.1 (preSlot images fmt u isDome slot))

/- The fixed cell coordinates of the 4x3 layout. -/
def COORDS (u : Nat) : FaceId → Nat × Nat
  | .up => (u, 0)
  | .left => (0, u)
  | .front => (u, u)
  | .right => (2 * u, u)
  | .back => (3 * u, u)
  | .down => (u, 2 * u)

def TARGET_SLOTS : List FaceId := [.up, .left, .front, .right, .back, .down]

/- The compositing loop: transparent 4u x 3u canvas, one paste per slot. -/
def compositeAtlas (images : FaceId → Raster) (fmt : FaceId → SrcFmt)
    (u : Nat) (isDome : Bool) : Raster :=
  TARGET_SLOTS.foldl
    (fun canvas slot =>
      pasteImg canvas (slotImage images fmt u isDome slot) (COORDS u slot))
    (newImg (4 * u) (3 * u) (0, 0, 0, 0))

/- Sizing plus compositing; none models the aborted run (no atlas). -/
def stitchCore (images : FaceId → Raster) (fmt : FaceId → SrcFmt) :
    Option Raster :=
  match sizeInfer images with
  | none => none
  | some (w, h, dome) => some (compositeAtlas images fmt (if dome then h else w) dome)

/- ------------------------------------------------------------------ -/
/- String helpers for the face resolver (find_cubemap_files).          -/
/- ------------------------------------------------------------------ -/

/- str.lower() -/
def lowerS (s : String) : String := ⟨s.data.map Char.toLower⟩

/- str.endswith(suff) -/
def endsWithS (s suff : String) : Bool := suff.data.isSuffixOf s.data

/- Python `sub in s` (substring containment). -/
def hasSubS (s sub : String) : Bool :=
  (List.range (s.data.length + 1)).any fun i => sub.data.isPrefixOf (s.data.drop i)

/- os.path.basename: the part after the last slash. -/
def baseNameS (s : String) : String :=
  ⟨s.data.foldl (fun acc c => if c = '/' then [] else acc ++ [c]) []⟩

/- os.path.splitext(s)[0]: everything before the last dot (the resolver
   only applies this to names that contain an extension dot; the
   leading-dot special case of splitext never arises there). -/
def dropExtS (s : String) : String :=
  if s.data.any (fun c => c = '.') then
    ⟨(((s.data.reverse).dropWhile (fun c => c ≠ '.')).drop 1).reverse⟩
  else s

/- FACE_KEYWORDS -/
def keywordsOf : FaceId → List String
  | .back => ["back", "bk"]
  | .up => ["up", "top"]
  | .front => ["front", "ft"]
  | .right => ["right", "rt"]
  | .left => ["left", "lf"]
  | .down => ["down", "dn"]

def IMAGE_EXTENSIONS : List String :=
  [".vtf", ".png", ".jpg", ".jpeg", ".tga", ".hdr", ".exr"]

def ALL_EXTENSIONS : List String := IMAGE_EXTENSIONS ++ [".vmt"]

/- target_files: the listing filtered to recognised extensions (every
   entry of the model listing is a file). -/
def targetFiles (files : List String) : List String :=
  files.filter fun p => ALL_EXTENSIONS.any fun e => endsWithS (lowerS p) e

/- Does file p match face f at image extension e: the extension test on the
   lowercased path, the keyword containment pre-check on the lowercased
   basename, and the keyword suffix test on the name without extension. -/
def matchF (f : FaceId) (e : String) (p : String) : Bool :=
  endsWithS (lowerS p) e &&
    ((keywordsOf f).any (fun k => hasSubS (lowerS (baseNameS p)) k) &&
     (keywordsOf f).any (fun k => endsWithS (dropExtS (lowerS (baseNameS p))) k))

/- The resolver result for one face: extensions are tried in priority
   order, and within one extension the first file of the listing wins. -/
def findFace (files : List String) (f : FaceId) : Option String :=
  IMAGE_EXTENSIONS.findSome? fun e => (targetFiles files).find? fun p => matchF f e p

/- The missing-face report, in the sorted(missing_faces) print order. -/
def missingFaces (files : List String) : List FaceId :=
  [FaceId.back, .down, .front, .left, .right, .up].filter
    fun f => (findFace files f).isNone

/- The FaceId → path dict returned by find_cubemap_files (membership is
   what matters; Python's set comprehension leaves the order unspecified). -/
def resolveMap (files : List String) : List (FaceId × String) :=
  faceOrder.filterMap fun f => (findFace files f).map fun p => (f, p)

/- Lexicographic order on strings (by character code), kernel-computable. -/
def lexLeC : List Char → List Char → Bool
  | [], _ => true
  | _ :: _, [] => false
  | a :: as, b :: bs => if a = b then lexLeC as bs else decide (a < b)

def strLe (s t : String) : Bool := lexLeC s.data t.data

/- ------------------------------------------------------------------ -/
/- Effect-level model of stitch_cubemap_rotated: the conversion stage,  -/
/- the temporary files it creates, and the file-system effects of each  -/
/- exit path.                                                           -/
/- ------------------------------------------------------------------ -/

/- Observable file-system effects of one run. -/
inductive Eff
  | createTemp (p : String)
  | removeTemp (p : String)
  | saveAtlas (p : String)
deriving DecidableEq

/- The external world: what Image.open yields per path, whether the VTF
   parser succeeds, whether openexr-numpy is importable, and whether an
   EXR file decodes. -/
structure Env where
  imageOf : String → Raster
  vtfOk : String → Bool
  exrSupport : Bool
  exrOk : String → Bool

def tempNameOf (tempDir path : String) : String :=
  tempDir ++ "/" ++ dropExtS (baseNameS path) ++ ".temp_converted.png"

/- State threaded through the conversion loop: png_paths_map,
   face_source_info, temp_files and the effect trace so far. -/
structure ConvSt where
  png : List (FaceId × String)
  fmts : List (FaceId × SrcFmt)
  temps : List String
  trace : List Eff

/- The conversion stage.  A VTF failure removes every temp file created so
   far before returning; the two EXR failure exits (missing support,
   failed decode) return without touching temp_files, exactly as the
   Python does. -/
def convertFaces (env : Env) (tempDir : String) :
    List (FaceId × String) → ConvSt → Except (List Eff) ConvSt
  | [], st => .ok st
  | (face, path) :: rest, st =>
    if endsWithS (lowerS path) ".vtf" then
      let t := tempNameOf tempDir path
      if env.vtfOk path then
        convertFaces env tempDir rest
          { png := st.png ++ [(face, t)], fmts := st.fmts ++ [(face, .dflt)],
            temps := st.temps ++ [t], trace := st.trace ++ [.createTemp t] }
      else
        .error (st.trace ++ st.temps.map .removeTemp)
    else if endsWithS (lowerS path) ".exr" then
      if env.exrSupport then
        let t := tempNameOf tempDir path
        if env.exrOk path then
          convertFaces env tempDir rest
            { png := st.png ++ [(face, t)], fmts := st.fmts ++ [(face, .exr)],
              temps := st.temps ++ [t], trace := st.trace ++ [.createTemp t] }
        else .error st.trace
      else .error st.trace
    else
      convertFaces env tempDir rest
        { st with png := st.png ++ [(face, path)], fmts := st.fmts ++ [(face, .dflt)] }

/- Outcome of one stitch run: the return flag, the effect trace, and the
   atlas when one was composited. -/
structure RunOut where
  ok : Bool
  trace : List Eff
  atlas : Option Raster

/- stitch_cubemap_rotated end to end: the six-face check, the conversion
   stage, sizing, compositing, the atlas save and the final temp cleanup. -/
def stitchRun (env : Env) (fmap : List (FaceId × String))
    (outPath tempDir : String) : RunOut :=
  if fmap.length ≠ 6 then ⟨false, [], none⟩
  else
    match convertFaces env tempDir fmap ⟨[], [], [], []⟩ with
    | .error tr => ⟨false, tr, none⟩
    | .ok st =>
      let images : FaceId → Raster := fun f => env.imageOf ((lookupF st.png f).getD "")
      let fmt : FaceId → SrcFmt := fun f => (lookupF st.fmts f).getD .dflt
      match sizeInfer images with
      | none => ⟨false, st.trace ++ st.temps.map .removeTemp, none⟩
      | some (w, h, dome) =>
        let atlas := compositeAtlas images fmt (if dome then h else w) dome
        ⟨true, st.trace ++ [.saveAtlas outPath] ++ st.temps.map .removeTemp, some atlas⟩

/- ------------------------------------------------------------------ -/
/- Concrete inputs used by witnesses and counterexamples.              -/
/- ------------------------------------------------------------------ -/

/- A solid white raster. -/
def whiteR (w h : Nat) : Raster := ⟨w, h, fun _ _ => (255, 255, 255, 255)⟩

def imgsW64 : FaceId → Raster := fun _ => whiteR 64 64

def fmtDflt : FaceId → SrcFmt := fun _ => .dflt

def fmtExr : FaceId → SrcFmt := fun _ => .exr

/- Six 2:1 white dome faces. -/
def imgsDome : FaceId → Raster := fun _ => whiteR 128 64

/- The up face 100 wide and 4 tall (placeholder by height only). -/
def imgsThin : FaceId → Raster := fun f => if f = .up then whiteR 100 4 else whiteR 512 512

/- The up face a 4x4 placeholder. -/
def imgsPh : FaceId → Raster := fun f => if f = .up then whiteR 4 4 else whiteR 512 512

/- A directory listing resolving five of the six faces (down is missing). -/
def files5 : List String :=
  ["sky_bk.png", "sky_up.png", "sky_ft.png", "sky_rt.png", "sky_lf.png"]

/- Two orderings of one set of files that both match the up face. -/
def filesAB : List String := ["a_up.png", "b_up.png"]

def filesBA : List String := ["b_up.png", "a_up.png"]

/- Environment of the leaked-temp run: the VTF face converts, EXR support
   is missing. -/
def env7 : Env := ⟨fun _ => whiteR 512 512, fun _ => true, false, fun _ => false⟩

/- A benign environment. -/
def envOK : Env := ⟨fun _ => whiteR 512 512, fun _ => true, true, fun _ => true⟩

/- The six-face map of the leaked-temp run: the VTF face is processed
   before the EXR face. -/
def map7 : List (FaceId × String) :=
  [(.back, "sky_bk.vtf"), (.up, "sky_up.exr"), (.front, "sky_ft.png"),
   (.right, "sky_rt.png"), (.left, "sky_lf.png"), (.down, "sky_dn.png")]

/- ------------------------------------------------------------------ -/
/- Helper lemmas: dimensions.                                          -/
/- ------------------------------------------------------------------ -/

theorem rotateImg_w (d : Int) (r : Raster) : (rotateImg d r).w = r.w := by
  unfold rotateImg; split_ifs <;> rfl

theorem rotateImg_h (d : Int) (r : Raster) : (rotateImg d r).h = r.h := by
  unfold rotateImg; split_ifs <;> rfl

theorem transposeImg_w (c : FlipConst) (r : Raster) : (transposeImg c r).w = r.w := by
  cases c <;> rfl

theorem transposeImg_h (c : FlipConst) (r : Raster) : (transposeImg c r).h = r.h := by
  cases c <;> rfl

theorem resizeImg_w (w2 h2 : Nat) (r : Raster) : (resizeImg w2 h2 r).w = w2 := by
  unfold resizeImg; split_ifs with h
  · exact h.1
  · rfl

theorem resizeImg_h (w2 h2 : Nat) (r : Raster) : (resizeImg w2 h2 r).h = h2 := by
  unfold resizeImg; split_ifs with h
  · exact h.2
  · rfl

theorem rotStep_w (d : Int) (r : Raster) : (rotStep d r).w = r.w := by
  unfold rotStep; split_ifs with h
  · exact rotateImg_w d r
  · rfl

theorem rotStep_h (d : Int) (r : Raster) : (rotStep d r).h = r.h := by
  unfold rotStep; split_ifs with h
  · exact rotateImg_h d r
  · rfl

theorem flipStep_w (o : Option FlipConst) (r : Raster) : (flipStep o r).w = r.w := by
  cases o with
  | none => rfl
  | some fl => exact transposeImg_w fl r

theorem flipStep_h (o : Option FlipConst) (r : Raster) : (flipStep o r).h = r.h := by
  cases o with
  | none => rfl
  | some fl => exact transposeImg_h fl r

theorem preSlot_w (images : FaceId → Raster) (fmt : FaceId → SrcFmt)
    (u : Nat) (isDome : Bool) (slot : FaceId) :
    (preSlot images fmt u isDome slot).w = u := by
  simp only [preSlot]
  split_ifs <;> first | rfl | exact resizeImg_w u u _

theorem preSlot_h (images : FaceId → Raster) (fmt : FaceId → SrcFmt)
    (u : Nat) (isDome : Bool) (slot : FaceId) :
    (preSlot images fmt u isDome slot).h = u := by
  simp only [preSlot]
  split_ifs <;> first | rfl | exact resizeImg_h u u _

theorem slotImage_w (images : FaceId → Raster) (fmt : FaceId → SrcFmt)
    (u : Nat) (isDome : Bool) (slot : FaceId) :
    (slotImage images fmt u isDome slot).w = u := by
  unfold slotImage
  rw [flipStep_w, rotStep_w, preSlot_w]

theorem slotImage_h (images : FaceId → Raster) (fmt : FaceId → SrcFmt)
    (u : Nat) (isDome : Bool) (slot : FaceId) :
    (slotImage images fmt u isDome slot).h = u := by
  unfold slotImage
  rw [flipStep_h, rotStep_h, preSlot_h]

/- ------------------------------------------------------------------ -/
/- Helper lemmas: the compositing fold.                                -/
/- ------------------------------------------------------------------ -/

theorem compositeAtlas_w (images : FaceId → Raster) (fmt : FaceId → SrcFmt)
    (u : Nat) (isDome : Bool) : (compositeAtlas images fmt u isDome).w = 4 * u := rfl

theorem compositeAtlas_h (images : FaceId → Raster) (fmt : FaceId → SrcFmt)
    (u : Nat) (isDome : Bool) : (compositeAtlas images fmt u isDome).h = 3 * u := rfl

/- The pixel inside a slot cell is the processed slot image's pixel. -/
theorem composite_cell (images : FaceId → Raster) (fmt : FaceId → SrcFmt)
    (u : Nat) (isDome : Bool) (slot : FaceId) (dx dy : Nat)
    (hdx : dx < u) (hdy : dy < u) :
    (compositeAtlas images fmt u isDome).pix
      ((COORDS u slot).1 + dx) ((COORDS u slot).2 + dy)
      = (slotImage images fmt u isDome slot).pix dx dy := by
  have hw : ∀ s, (slotImage images fmt u isDome s).w = u :=
    fun s => slotImage_w images fmt u isDome s
  have hh : ∀ s, (slotImage images fmt u isDome s).h = u :=
    fun s => slotImage_h images fmt u isDome s
  cases slot <;>
    (simp only [compositeAtlas, TARGET_SLOTS, List.foldl, COORDS, pasteImg, hw, hh, newImg]
     split_ifs <;> first
       | (congr 1 <;> omega)
       | omega)

/- Every pixel outside the six cells keeps the transparent canvas colour. -/
theorem composite_outside (images : FaceId → Raster) (fmt : FaceId → SrcFmt)
    (u : Nat) (isDome : Bool) (x y : Nat)
    (hout : ∀ slot, ¬ ((COORDS u slot).1 ≤ x ∧ x < (COORDS u slot).1 + u ∧
      (COORDS u slot).2 ≤ y ∧ y < (COORDS u slot).2 + u)) :
    (compositeAtlas images fmt u isDome).pix x y = (0, 0, 0, 0) := by
  have hw : ∀ s, (slotImage images fmt u isDome s).w = u :=
    fun s => slotImage_w images fmt u isDome s
  have hh : ∀ s, (slotImage images fmt u isDome s).h = u :=
    fun s => slotImage_h images fmt u isDome s
  have hup := hout FaceId.up
  have hlf := hout FaceId.left
  have hft := hout FaceId.front
  have hrt := hout FaceId.right
  have hbk := hout FaceId.back
  have hdn := hout FaceId.down
  simp only [COORDS] at hup hlf hft hrt hbk hdn
  simp only [compositeAtlas, TARGET_SLOTS, List.foldl, COORDS, pasteImg, hw, hh, newImg]
  rw [if_neg (by omega), if_neg (by omega), if_neg (by omega),
    if_neg (by omega), if_neg (by omega), if_neg (by omega)]

/- ------------------------------------------------------------------ -/
/- Helper lemmas: size and topology inference.                         -/
/- ------------------------------------------------------------------ -/

theorem mem_faceOrder (f : FaceId) : f ∈ faceOrder := by
  cases f <;> simp [faceOrder]

theorem validSizes_nil_iff (images : FaceId → Raster) :
    validSizes images = [] ↔ ∀ f, validR (images f) = false := by
  unfold validSizes
  rw [List.filterMap_eq_nil]
  constructor
  · intro h f
    have h2 := h f (mem_faceOrder f)
    by_contra hne
    rw [Bool.not_eq_false] at hne
    simp [hne] at h2
  · intro h f _
    simp [h f]

theorem maxArea_mem (s0 : Nat × Nat) (rest : List (Nat × Nat)) :
    maxArea s0 rest ∈ s0 :: rest := by
  induction rest generalizing s0 with
  | nil => simp [maxArea]
  | cons x xs ih =>
    have heq : maxArea s0 (x :: xs) =
        maxArea (if s0.1 * s0.2 < x.1 * x.2 then x else s0) xs := rfl
    rw [heq]
    rcases List.mem_cons.1 (ih (if s0.1 * s0.2 < x.1 * x.2 then x else s0)) with h1 | h1
    · rw [h1]
      split_ifs
      · exact List.mem_cons_of_mem _ (List.mem_cons_self _ _)
      · exact List.mem_cons_self _ _
    · exact List.mem_cons_of_mem _ (List.mem_cons_of_mem _ h1)

theorem maxArea_ge (s0 : Nat × Nat) (rest : List (Nat × Nat)) :
    ∀ s ∈ s0 :: rest, s.1 * s.2 ≤ (maxArea s0 rest).1 * (maxArea s0 rest).2 := by
  induction rest generalizing s0 with
  | nil =>
    intro s hs
    rcases List.mem_cons.1 hs with h1 | h1
    · rw [h1]; exact Nat.le_refl _
    · simp at h1
  | cons x xs ih =>
    intro s hs
    have heq : maxArea s0 (x :: xs) =
        maxArea (if s0.1 * s0.2 < x.1 * x.2 then x else s0) xs := rfl
    rw [heq]
    have hstep : s0.1 * s0.2 ≤ (if s0.1 * s0.2 < x.1 * x.2 then x else s0).1 *
        (if s0.1 * s0.2 < x.1 * x.2 then x else s0).2 := by
      split_ifs with h
      · exact Nat.le_of_lt h
      · exact Nat.le_refl _
    have hstepx : x.1 * x.2 ≤ (if s0.1 * s0.2 < x.1 * x.2 then x else s0).1 *
        (if s0.1 * s0.2 < x.1 * x.2 then x else s0).2 := by
      split_ifs with h
      · exact Nat.le_refl _
      · omega
    have hbase := ih (if s0.1 * s0.2 < x.1 * x.2 then x else s0) _
      (List.mem_cons_self _ _)
    rcases List.mem_cons.1 hs with h1 | h1
    · rw [h1]; exact Nat.le_trans hstep hbase
    · rcases List.mem_cons.1 h1 with h2 | h2
      · rw [h2]; exact Nat.le_trans hstepx hbase
      · exact ih _ s (List.mem_cons_of_mem _ h2)

theorem mem_validSizes_ge (images : FaceId → Raster) :
    ∀ s ∈ validSizes images, MIN_SIZE ≤ s.1 ∧ MIN_SIZE ≤ s.2 := by
  intro s hs
  unfold validSizes at hs
  rw [List.mem_filterMap] at hs
  obtain ⟨f, _, heq⟩ := hs
  by_cases hv : validR (images f) = true
  · rw [if_pos hv] at heq
    simp only [Option.some.injEq] at heq
    simp only [validR, Bool.and_eq_true, decide_eq_true_eq] at hv
    rw [← heq]
    exact hv
  · rw [if_neg hv] at heq
    simp at heq

/- When the front face is not a placeholder, the reference size is the
   front face's size. -/
theorem sizeInfer_eq_front (images : FaceId → Raster)
    (hf : validR (images .front) = true) :
    sizeInfer images = some ((images .front).w, (images .front).h,
      decide (19 * (images .front).h < 10 * (images .front).w ∧
        10 * (images .front).w < 21 * (images .front).h)) := by
  have hne : validSizes images ≠ [] := by
    intro hnil
    have := (validSizes_nil_iff images).1 hnil .front
    rw [hf] at this
    exact Bool.true_eq_false.mp this
  cases hvs : validSizes images with
  | nil => exact absurd hvs hne
  | cons s0 rest =>
    simp only [validR, Bool.and_eq_true, decide_eq_true_eq] at hf
    unfold sizeInfer
    rw [hvs]
    simp only []
    rw [if_neg (by omega)]

/- When the front face is a placeholder, the reference size is the first
   largest-area valid size. -/
theorem sizeInfer_eq_max (images : FaceId → Raster)
    (hf : validR (images .front) = false)
    (s0 : Nat × Nat) (rest : List (Nat × Nat))
    (hvs : validSizes images = s0 :: rest) :
    sizeInfer images = some ((maxArea s0 rest).1, (maxArea s0 rest).2,
      decide (19 * (maxArea s0 rest).2 < 10 * (maxArea s0 rest).1 ∧
        10 * (maxArea s0 rest).1 < 21 * (maxArea s0 rest).2)) := by
  have hf2 : (images .front).w < MIN_SIZE ∨ (images .front).h < MIN_SIZE := by
    by_contra hcon
    push_neg at hcon
    have htr : validR (images .front) = true := by
      simp only [validR, Bool.and_eq_true, decide_eq_true_eq]
      omega
    rw [htr] at hf
    simp at hf
  unfold sizeInfer
  rw [hvs]
  simp only []
  rw [if_pos hf2]

theorem sizeInfer_some_ge (images : FaceId → Raster) (w h : Nat) (d : Bool)
    (hs : sizeInfer images = some (w, h, d)) : MIN_SIZE ≤ w ∧ MIN_SIZE ≤ h := by
  cases hvs : validSizes images with
  | nil =>
    unfold sizeInfer at hs
    rw [hvs] at hs
    simp at hs
  | cons s0 rest =>
    by_cases hf : validR (images .front) = true
    · rw [sizeInfer_eq_front images hf] at hs
      simp only [Option.some.injEq, Prod.mk.injEq] at hs
      simp only [validR, Bool.and_eq_true, decide_eq_true_eq] at hf
      obtain ⟨hw, hh, _⟩ := hs
      rw [← hw, ← hh]
      exact hf
    · rw [Bool.not_eq_true] at hf
      rw [sizeInfer_eq_max images hf s0 rest hvs] at hs
      simp only [Option.some.injEq, Prod.mk.injEq] at hs
      obtain ⟨hw, hh, _⟩ := hs
      have hmem := maxArea_mem s0 rest
      rw [← hvs] at hmem
      have := mem_validSizes_ge images _ hmem
      rw [← hw, ← hh]
      exact this

/- The dome flag is exactly the embedded 1.9 < ratio < 2.1 test on the
   reference size. -/
theorem sizeInfer_dome_iff (images : FaceId → Raster) (w h : Nat) (d : Bool)
    (hs : sizeInfer images = some (w, h, d)) :
    d = decide (19 * h < 10 * w ∧ 10 * w < 21 * h) := by
  cases hvs : validSizes images with
  | nil =>
    unfold sizeInfer at hs
    rw [hvs] at hs
    simp at hs
  | cons s0 rest =>
    by_cases hf : validR (images .front) = true
    · rw [sizeInfer_eq_front images hf] at hs
      simp only [Option.some.injEq, Prod.mk.injEq] at hs
      obtain ⟨hw, hh, hd⟩ := hs
      rw [← hw, ← hh, ← hd]
    · rw [Bool.not_eq_true] at hf
      rw [sizeInfer_eq_max images hf s0 rest hvs] at hs
      simp only [Option.some.injEq, Prod.mk.injEq] at hs
      obtain ⟨hw, hh, hd⟩ := hs
      rw [← hw, ← hh, ← hd]

/- Six equal square faces of size S ≥ 64 infer reference (S, S), not dome. -/
theorem sizeInfer_square (images : FaceId → Raster) (S : Nat)
    (h64 : MIN_SIZE ≤ S) (hsz : ∀ f, (images f).w = S ∧ (images f).h = S) :
    sizeInfer images = some (S, S, false) := by
  have hf : validR (images .front) = true := by
    simp only [validR, Bool.and_eq_true, decide_eq_true_eq,
      (hsz .front).1, (hsz .front).2]
    exact ⟨h64, h64⟩
  rw [sizeInfer_eq_front images hf, (hsz .front).1, (hsz .front).2]
  have : decide (19 * S < 10 * S ∧ 10 * S < 21 * S) = false := by
    rw [decide_eq_false_iff_not]
    omega
  rw [this]

theorem stitchCore_eq (images : FaceId → Raster) (fmt : FaceId → SrcFmt)
    (w h : Nat) (d : Bool) (hs : sizeInfer images = some (w, h, d)) :
    stitchCore images fmt = some (compositeAtlas images fmt (if d then h else w) d) := by
  unfold stitchCore
  rw [hs]

theorem stitchCore_none (images : FaceId → Raster) (fmt : FaceId → SrcFmt)
    (hs : sizeInfer images = none) : stitchCore images fmt = none := by
  unfold stitchCore
  rw [hs]

/- ------------------------------------------------------------------ -/
/- Helper lemmas: the face resolver.                                   -/
/- ------------------------------------------------------------------ -/

theorem lexLeC_refl (l : List Char) : lexLeC l l = true := by
  induction l with
  | nil => rfl
  | cons a as ih => simp [lexLeC, ih]

theorem strLe_refl (s : String) : strLe s s = true := lexLeC_refl s.data

/- In a sorted listing, find? returns an element no larger than any
   element satisfying the predicate. -/
theorem find?_sorted_first (p : String → Bool) :
    ∀ (l : List String), l.Pairwise (fun a b => strLe a b = true) →
      ∀ a, l.find? p = some a → ∀ b ∈ l, p b = true → strLe a b = true := by
  intro l
  induction l with
  | nil =>
    intro _ a ha
    simp at ha
  | cons x xs ih =>
    intro hp a hfind b hb hpb
    obtain ⟨hhead, htail⟩ := List.pairwise_cons.1 hp
    by_cases hx : p x = true
    · rw [List.find?_cons_of_pos _ hx] at hfind
      have hax : a = x := by
        simpa using hfind.symm
      subst hax
      rcases List.mem_cons.1 hb with h1 | h1
      · rw [h1]; exact strLe_refl a
      · exact hhead b h1
    · rw [List.find?_cons_of_neg _ hx] at hfind
      rcases List.mem_cons.1 hb with h1 | h1
      · rw [h1] at hpb; exact absurd hpb hx
      · exact ih htail a hfind b h1 hpb

theorem findSome?_exists {α β : Type} (g : α → Option β) :
    ∀ (l : List α) (b : β), l.findSome? g = some b → ∃ a ∈ l, g a = some b := by
  intro l
  induction l with
  | nil =>
    intro b hb
    simp [List.findSome?] at hb
  | cons x xs ih =>
    intro b hb
    rw [List.findSome?_cons] at hb
    cases hx : g x with
    | some v =>
      rw [hx] at hb
      refine ⟨x, List.mem_cons_self _ _, ?_⟩
      rw [hx]
      exact hb
    | none =>
      rw [hx] at hb
      obtain ⟨a, ha, hg⟩ := ih b hb
      exact ⟨a, List.mem_cons_of_mem _ ha, hg⟩

/- No recognised image extension is a suffix of another; a path therefore
   determines the extension it matched. -/
theorem imageExt_unique (e1 e2 s : String)
    (h1 : e1 ∈ IMAGE_EXTENSIONS) (h2 : e2 ∈ IMAGE_EXTENSIONS)
    (hs1 : endsWithS s e1 = true) (hs2 : endsWithS s e2 = true) : e1 = e2 := by
  have t1 : e1.data <:+ s.data := List.isSuffixOf_iff_suffix.1 hs1
  have t2 : e2.data <:+ s.data := List.isSuffixOf_iff_suffix.1 hs2
  have key : ∀ a ∈ IMAGE_EXTENSIONS, ∀ b ∈ IMAGE_EXTENSIONS,
      a.data <:+ b.data → a = b := by decide
  rcases List.suffix_or_suffix_of_suffix t1 t2 with h | h
  · exact key e1 h1 e2 h2 h
  · exact (key e2 h2 e1 h1 h).symm

/- A file that matches at an image extension passes the target-files
   filter. -/
theorem mem_targetFiles_of_matchF (files : List String) (f : FaceId)
    (e q : String) (he : e ∈ IMAGE_EXTENSIONS) (hq : q ∈ files)
    (hm : matchF f e q = true) : q ∈ targetFiles files := by
  unfold targetFiles
  rw [List.mem_filter]
  refine ⟨hq, ?_⟩
  rw [List.any_eq_true]
  have hext : endsWithS (lowerS q) e = true := by
    unfold matchF at hm
    rw [Bool.and_eq_true] at hm
    exact hm.1
  exact ⟨e, by unfold ALL_EXTENSIONS; exact List.mem_append_left _ he, hext⟩

/- ------------------------------------------------------------------ -/
/- Helper lemmas: constant rasters, classification, resolver counting. -/
/- ------------------------------------------------------------------ -/

theorem classifyShape_dome_iff (w h : Nat) :
    classifyShape w h = .dome2to1 ↔ (19 * h < 10 * w ∧ 10 * w < 21 * h) := by
  unfold classifyShape
  split_ifs with h1 h2
  · simp [h1]
  · simp [h1]
  · simp [h1]

/- Rotation of a raster whose pixels are all c keeps all pixels c. -/
theorem rotStep_const {r : Raster} {c : Pixel} (deg : Int)
    (hc : ∀ a b, r.pix a b = c) : ∀ x y, (rotStep deg r).pix x y = c := by
  unfold rotStep rotateImg
  split_ifs <;> intro x y <;> exact hc _ _

/- Flip of a raster whose pixels are all c keeps all pixels c. -/
theorem flipStep_const {r : Raster} {c : Pixel} (o : Option FlipConst)
    (hc : ∀ a b, r.pix a b = c) : ∀ x y, (flipStep o r).pix x y = c := by
  cases o with
  | none => intro x y; exact hc x y
  | some fl => cases fl <;> intro x y <;> exact hc _ _

/- The resolver map has one entry per face the resolver settles. -/
theorem resolveMap_length_countP (l : List String) :
    ∀ (fs : List FaceId),
      (fs.filterMap fun f => (findFace l f).map fun p => (f, p)).length =
        fs.countP fun f => (findFace l f).isSome := by
  intro fs
  induction fs with
  | nil => rfl
  | cons f rest ih =>
    cases hf : findFace l f with
    | none =>
      rw [List.filterMap_cons, List.countP_cons, hf]
      simp [ih]
    | some p =>
      rw [List.filterMap_cons, List.countP_cons, hf]
      simp [ih]

/- ------------------------------------------------------------------ -/
/- Claims.                                                             -/
/- ------------------------------------------------------------------ -/

/-- C10: the dome (HL2/TF2) transform table and the default (square)
transform table are identical mappings: every slot maps to the same
(source face, rotation, flip) triple in both, so for non-EXR slots
selecting the dome table instead of the default table never changes the
selected rule (and hence the composited output beyond the separate 2:1
resize handling). -/
theorem claim_C10_dome_table_equals_default :
    HL2_TF2_DOME_TRANSFORMS = DEFAULT_TRANSFORMS ∧
    ∀ slot, ruleOf HL2_TF2_DOME_TRANSFORMS slot = ruleOf DEFAULT_TRANSFORMS slot := by
  refine ⟨rfl, ?_⟩
  intro slot
  rfl

/-- C8: for every square raster, rotating by 180 degrees with no flip is
pixel-identical to applying the ROTATE_180 transpose with no rotation
(dimensions agree and every in-bounds pixel agrees). -/
theorem claim_C8_rot180_eq_transpose (r : Raster) (hsq : r.w = r.h) :
    (rotateImg 180 r).w = (transposeImg .rot180 r).w ∧
    (rotateImg 180 r).h = (transposeImg .rot180 r).h ∧
    ∀ x y, x < r.w → y < r.h →
      (rotateImg 180 r).pix x y = (transposeImg .rot180 r).pix x y := by
  refine ⟨?_, ?_, ?_⟩
  · simp [rotateImg, transposeImg]
  · simp [rotateImg, transposeImg]
  · intro x y _ _
    simp [rotateImg, transposeImg]

/-- C8 witness: the identity evaluated on a concrete 2x2 square raster. -/
theorem claim_C8_witness :
    (rotateImg 180 (whiteR 2 2)).w = (transposeImg .rot180 (whiteR 2 2)).w ∧
    (rotateImg 180 (whiteR 2 2)).h = (transposeImg .rot180 (whiteR 2 2)).h ∧
    ∀ x y, x < (whiteR 2 2).w → y < (whiteR 2 2).h →
      (rotateImg 180 (whiteR 2 2)).pix x y = (transposeImg .rot180 (whiteR 2 2)).pix x y :=
  claim_C8_rot180_eq_transpose (whiteR 2 2) rfl

/-- C4: per output slot, the transform table is selected by precedence
(exr source format first, then dome topology, else the default table);
a slot missing from the selected table falls back to the identity rule
(same face, 0 degrees, no flip); and the slot image applies the rule's
rotation before its flip. -/
theorem claim_C4_table_selection (fmt : FaceId → SrcFmt) (isDome : Bool)
    (slot : FaceId) :
    (chooseMap fmt isDome slot =
      (if fmt slot = .exr then EXR_TRANSFORMS
       else if isDome then HL2_TF2_DOME_TRANSFORMS
       else DEFAULT_TRANSFORMS)) ∧
    (∀ (tbl : List (FaceId × Rule)) (s : FaceId), lookupF tbl s = none →
      ruleOf tbl s = (s, 0, none)) ∧
    (∀ (images : FaceId → Raster) (u : Nat),
      slotImage images fmt u isDome slot =
        flipStep (ruleOf (chooseMap fmt isDome slot) slot).2.2
          (rotStep (ruleOf (chooseMap fmt isDome slot) slot).2.1
            (preSlot images fmt u isDome slot))) := by
  refine ⟨?_, ?_, ?_⟩
  · unfold chooseMap
    by_cases h : fmt slot = .exr
    · simp [h]
    · simp [h]
  · intro tbl s hnone
    unfold ruleOf
    rw [hnone]
    rfl
  · intro images u
    rfl

/-- C4 witness: the selection property evaluated at a concrete slot and
format assignment. -/
theorem claim_C4_witness :
    (chooseMap fmtDflt false .up =
      (if fmtDflt .up = .exr then EXR_TRANSFORMS
       else if false then HL2_TF2_DOME_TRANSFORMS
       else DEFAULT_TRANSFORMS)) ∧
    (∀ (tbl : List (FaceId × Rule)) (s : FaceId), lookupF tbl s = none →
      ruleOf tbl s = (s, 0, none)) ∧
    (∀ (images : FaceId → Raster) (u : Nat),
      slotImage images fmtDflt u false .up =
        flipStep (ruleOf (chooseMap fmtDflt false .up) .up).2.2
          (rotStep (ruleOf (chooseMap fmtDflt false .up) .up).2.1
            (preSlot images fmtDflt u false .up))) :=
  claim_C4_table_selection fmtDflt false .up

/-- C2: the size inferencer fails exactly when every raster is below the
64-pixel minimum in width or height; otherwise the reference size is the
front raster's size when the front raster is valid, and the size of a
largest-area valid raster when it is not; the dome flag holds exactly
when the classification of the reference is dome2to1 (ratio in
(1.9, 2.1)); any other classification (square or the warned unusual
case) proceeds with square handling and unit size = reference width; and
a failed inference aborts with no atlas. -/
theorem claim_C2_size_inference (images : FaceId → Raster) (fmt : FaceId → SrcFmt) :
    (sizeInfer images = none ↔ ∀ f, validR (images f) = false) ∧
    (validR (images .front) = true →
      ∀ w h d, sizeInfer images = some (w, h, d) →
        w = (images .front).w ∧ h = (images .front).h) ∧
    (validR (images .front) = false →
      ∀ w h d, sizeInfer images = some (w, h, d) →
        (w, h) ∈ validSizes images ∧
          ∀ s ∈ validSizes images, s.1 * s.2 ≤ w * h) ∧
    (∀ w h d, sizeInfer images = some (w, h, d) →
      ((d = true ↔ classifyShape w h = .dome2to1) ∧
       (classifyShape w h ≠ .dome2to1 → d = false) ∧
       stitchCore images fmt = some (compositeAtlas images fmt (if d then h else w) d))) ∧
    (sizeInfer images = none → stitchCore images fmt = none) := by
  refine ⟨?_, ?_, ?_, ?_, ?_⟩
  · have hshape : sizeInfer images = none ↔ validSizes images = [] := by
      unfold sizeInfer
      cases hvs : validSizes images with
      | nil => simp
      | cons s0 rest => simp
    rw [hshape, validSizes_nil_iff]
  · intro hf w h d hs
    rw [sizeInfer_eq_front images hf] at hs
    simp only [Option.some.injEq, Prod.mk.injEq] at hs
    exact ⟨hs.1.symm, hs.2.1.symm⟩
  · intro hf w h d hs
    cases hvs : validSizes images with
    | nil =>
      exfalso
      unfold sizeInfer at hs
      rw [hvs] at hs
      simp at hs
    | cons s0 rest =>
      rw [sizeInfer_eq_max images hf s0 rest hvs] at hs
      simp only [Option.some.injEq, Prod.mk.injEq] at hs
      obtain ⟨hw, hh, _⟩ := hs
      constructor
      · rw [← hw, ← hh, Prod.mk.eta]
        exact maxArea_mem s0 rest
      · intro s hsmem
        rw [← hw, ← hh]
        exact maxArea_ge s0 rest s hsmem
  · intro w h d hs
    have hd := sizeInfer_dome_iff images w h d hs
    refine ⟨?_, ?_, stitchCore_eq images fmt w h d hs⟩
    · rw [hd, classifyShape_dome_iff]
      simp
    · intro hcl
      rw [hd, decide_eq_false_iff_not]
      intro hP
      exact hcl ((classifyShape_dome_iff w h).2 hP)
  · exact stitchCore_none images fmt

/-- C2 witness: the size-inference contract evaluated on six equal
512-by-512 faces. -/
theorem claim_C2_witness :
    (sizeInfer (fun _ => whiteR 512 512) = none ↔
      ∀ f, validR ((fun (_ : FaceId) => whiteR 512 512) f) = false) ∧
    (validR ((fun (_ : FaceId) => whiteR 512 512) FaceId.front) = true →
      ∀ w h d, sizeInfer (fun _ => whiteR 512 512) = some (w, h, d) →
        w = ((fun (_ : FaceId) => whiteR 512 512) FaceId.front).w ∧
          h = ((fun (_ : FaceId) => whiteR 512 512) FaceId.front).h) ∧
    (validR ((fun (_ : FaceId) => whiteR 512 512) FaceId.front) = false →
      ∀ w h d, sizeInfer (fun _ => whiteR 512 512) = some (w, h, d) →
        (w, h) ∈ validSizes (fun _ => whiteR 512 512) ∧
          ∀ s ∈ validSizes (fun _ => whiteR 512 512), s.1 * s.2 ≤ w * h) ∧
    (∀ w h d, sizeInfer (fun _ => whiteR 512 512) = some (w, h, d) →
      ((d = true ↔ classifyShape w h = .dome2to1) ∧
       (classifyShape w h ≠ .dome2to1 → d = false) ∧
       stitchCore (fun _ => whiteR 512 512) fmtDflt =
         some (compositeAtlas (fun _ => whiteR 512 512) fmtDflt (if d then h else w) d))) ∧
    (sizeInfer (fun _ => whiteR 512 512) = none →
      stitchCore (fun _ => whiteR 512 512) fmtDflt = none) :=
  claim_C2_size_inference (fun _ => whiteR 512 512) fmtDflt

/-- C1: for six faces of equal square size S ≥ 64, the composited atlas
has dimensions exactly (4S, 3S), each of the six populated cells sits at
its fixed 4x3 grid coordinate (up at (S,0), left at (0,S), front at
(S,S), right at (2S,S), back at (3S,S), down at (S,2S); the cell content
is the processed slot image), and every pixel outside those six cells
has alpha 0. -/
theorem claim_C1_atlas_layout (S : Nat) (images : FaceId → Raster)
    (fmt : FaceId → SrcFmt)
    (h64 : MIN_SIZE ≤ S) (hsz : ∀ f, (images f).w = S ∧ (images f).h = S) :
    ∃ atlas, stitchCore images fmt = some atlas ∧
      atlas.w = 4 * S ∧ atlas.h = 3 * S ∧
      (∀ slot dx dy, dx < S → dy < S →
        atlas.pix ((COORDS S slot).1 + dx) ((COORDS S slot).2 + dy) =
          (slotImage images fmt S false slot).pix dx dy) ∧
      (∀ x y, x < 4 * S → y < 3 * S →
        (∀ slot, ¬ ((COORDS S slot).1 ≤ x ∧ x < (COORDS S slot).1 + S ∧
          (COORDS S slot).2 ≤ y ∧ y < (COORDS S slot).2 + S)) →
        alphaOf (atlas.pix x y) = 0) := by
  have hs := sizeInfer_square images S h64 hsz
  refine ⟨compositeAtlas images fmt S false, ?_, rfl, rfl, ?_, ?_⟩
  · rw [stitchCore_eq images fmt S S false hs]
    rfl
  · intro slot dx dy hdx hdy
    exact composite_cell images fmt S false slot dx dy hdx hdy
  · intro x y _ _ hout
    rw [composite_outside images fmt S false x y hout]
    rfl

/-- C1 witness: the layout property evaluated on six 64x64 white faces. -/
theorem claim_C1_witness :
    ∃ atlas, stitchCore imgsW64 fmtDflt = some atlas ∧
      atlas.w = 4 * 64 ∧ atlas.h = 3 * 64 ∧
      (∀ slot dx dy, dx < 64 → dy < 64 →
        atlas.pix ((COORDS 64 slot).1 + dx) ((COORDS 64 slot).2 + dy) =
          (slotImage imgsW64 fmtDflt 64 false slot).pix dx dy) ∧
      (∀ x y, x < 4 * 64 → y < 3 * 64 →
        (∀ slot, ¬ ((COORDS 64 slot).1 ≤ x ∧ x < (COORDS 64 slot).1 + 64 ∧
          (COORDS 64 slot).2 ≤ y ∧ y < (COORDS 64 slot).2 + 64)) →
        alphaOf (atlas.pix x y) = 0) :=
  claim_C1_atlas_layout 64 imgsW64 fmtDflt (by decide)
    (fun f => by cases f <;> exact ⟨rfl, rfl⟩)

theorem flipStep_none (r : Raster) : flipStep none r = r := rfl

theorem rotStep_zero (r : Raster) : rotStep 0 r = r := rfl

/- On a dome run, a slot whose source format is not exr uses the dome
   table. -/
theorem chooseMap_dome (fmt : FaceId → SrcFmt) (s : FaceId)
    (hne : fmt s ≠ .exr) : chooseMap fmt true s = HL2_TF2_DOME_TRANSFORMS := by
  unfold chooseMap
  rw [if_neg hne, if_pos ⟨by trivial, hne⟩]

/- A dome horizontal slot with a non-placeholder source builds the
   half-height resize pasted on a black square. -/
theorem preSlot_dome (images : FaceId → Raster) (fmt : FaceId → SrcFmt)
    (H : Nat) (s fs : FaceId)
    (hcm : chooseMap fmt true s = HL2_TF2_DOME_TRANSFORMS)
    (hrule : ruleOf HL2_TF2_DOME_TRANSFORMS s = (fs, 0, none))
    (hhoriz : s ∈ HORIZ_SLOTS) (hwf : MIN_SIZE ≤ (images fs).w) :
    preSlot images fmt H true s =
      pasteImg (blackSq H) (resizeImg H (H / 2) (images fs)) (0, 0) := by
  simp only [preSlot, hcm, hrule]
  rw [if_neg (by omega), if_pos ⟨by trivial, hhoriz⟩]

theorem slotImage_dome (images : FaceId → Raster) (fmt : FaceId → SrcFmt)
    (H : Nat) (s fs : FaceId)
    (hcm : chooseMap fmt true s = HL2_TF2_DOME_TRANSFORMS)
    (hrule : ruleOf HL2_TF2_DOME_TRANSFORMS s = (fs, 0, none))
    (hhoriz : s ∈ HORIZ_SLOTS) (hwf : MIN_SIZE ≤ (images fs).w) :
    slotImage images fmt H true s =
      pasteImg (blackSq H) (resizeImg H (H / 2) (images fs)) (0, 0) := by
  simp only [slotImage, hcm, hrule]
  rw [flipStep_none, rotStep_zero]
  exact preSlot_dome images fmt H s fs hcm hrule hhoriz hwf

/- The bottom half of a dome horizontal cell is solid black. -/
theorem dome_cell_black (images : FaceId → Raster) (fmt : FaceId → SrcFmt)
    (H : Nat) (s fs : FaceId)
    (hcm : chooseMap fmt true s = HL2_TF2_DOME_TRANSFORMS)
    (hrule : ruleOf HL2_TF2_DOME_TRANSFORMS s = (fs, 0, none))
    (hhoriz : s ∈ HORIZ_SLOTS) (hwf : MIN_SIZE ≤ (images fs).w)
    (dx dy : Nat) (hdx : dx < H) (hdy1 : H / 2 ≤ dy) (hdy2 : dy < H) :
    (compositeAtlas images fmt H true).pix
      ((COORDS H s).1 + dx) ((COORDS H s).2 + dy) = (0, 0, 0, 255) := by
  rw [composite_cell images fmt H true s dx dy hdx hdy2,
    slotImage_dome images fmt H s fs hcm hrule hhoriz hwf]
  have hrh := resizeImg_h H (H / 2) (images fs)
  simp only [pasteImg]
  rw [if_neg (by omega)]
  rfl

/-- C3 counterexample: a valid dome-shaped input (six white 128x64 faces,
ratio 2.0) whose slots carry the exr source format is classified as a
dome map and unit size 64, yet the bottom half of the right horizontal
cell is white, not solid black: the EXR table's 180-degree rotation for
the right slot moves the black half-cell to the top.  The claim as
stated, quantified over every valid dome-shaped input, is therefore
false. -/
theorem claim_C3_counterexample :
    sizeInfer imgsDome = some (128, 64, true) ∧
    (stitchCore imgsDome fmtExr).map (fun a => a.pix 128 127) =
      some (255, 255, 255, 255) ∧
    (255, 255, 255, 255) ≠ ((0, 0, 0, 255) : Pixel) := by
  refine ⟨by decide, by decide, by decide⟩

/-- C3 (amended): for every valid dome-shaped input (front reference face
W x H with W/H in (1.9, 2.1), all faces at least 64 wide, front at least
64 high), the derived unit size equals H, and per slot: every horizontal
slot whose source format is not exr builds its cell by resizing the
source face to H x H/2 and pasting it at the top of a solid black H x H
canvas, and the bottom half of that cell in the atlas is solid black
(0,0,0,255) — regardless of the formats of the other slots.  The
restriction to non-exr slots is forced by the counterexample: the EXR
table rotates those cells. -/
theorem claim_C3_dome_amended (images : FaceId → Raster) (fmt : FaceId → SrcFmt)
    (W H : Nat)
    (hfw : (images .front).w = W) (hfh : (images .front).h = H)
    (hWv : MIN_SIZE ≤ W) (hHv : MIN_SIZE ≤ H)
    (hdome : 19 * H < 10 * W ∧ 10 * W < 21 * H)
    (hwide : ∀ f, MIN_SIZE ≤ (images f).w) :
    ∃ atlas, stitchCore images fmt = some atlas ∧
      sizeInfer images = some (W, H, true) ∧
      (∀ slot, slot ∈ HORIZ_SLOTS → fmt slot ≠ .exr →
        preSlot images fmt H true slot =
          pasteImg (blackSq H) (resizeImg H (H / 2)
            (images (ruleOf HL2_TF2_DOME_TRANSFORMS slot).1)) (0, 0)) ∧
      (∀ slot, slot ∈ HORIZ_SLOTS → fmt slot ≠ .exr →
        ∀ dx dy, dx < H → H / 2 ≤ dy → dy < H →
          atlas.pix ((COORDS H slot).1 + dx) ((COORDS H slot).2 + dy) =
            (0, 0, 0, 255)) := by
  have hft : validR (images .front) = true := by
    simp only [validR, Bool.and_eq_true, decide_eq_true_eq, hfw, hfh]
    exact ⟨hWv, hHv⟩
  have hs : sizeInfer images = some (W, H, true) := by
    rw [sizeInfer_eq_front images hft, hfw, hfh, decide_eq_true hdome]
  refine ⟨compositeAtlas images fmt H true, ?_, hs, ?_, ?_⟩
  · rw [stitchCore_eq images fmt W H true hs]
    rfl
  · intro slot hslot hne
    have hcm := chooseMap_dome fmt slot hne
    have hmem := hslot
    simp only [HORIZ_SLOTS, List.mem_cons, List.not_mem_nil, or_false] at hmem
    rcases hmem with h | h | h | h <;> subst h <;>
      exact preSlot_dome images fmt H _ _ hcm rfl (by decide) (hwide _)
  · intro slot hslot hne dx dy hdx hdy1 hdy2
    have hcm := chooseMap_dome fmt slot hne
    have hmem := hslot
    simp only [HORIZ_SLOTS, List.mem_cons, List.not_mem_nil, or_false] at hmem
    rcases hmem with h | h | h | h <;> subst h <;>
      exact dome_cell_black images fmt H _ _ hcm rfl (by decide) (hwide _)
        dx dy hdx hdy1 hdy2

/-- C3 (amended) witness: the dome contract evaluated on six white
128x64 faces of default (non-exr) format. -/
theorem claim_C3_witness :
    ∃ atlas, stitchCore imgsDome fmtDflt = some atlas ∧
      sizeInfer imgsDome = some (128, 64, true) ∧
      (∀ slot, slot ∈ HORIZ_SLOTS → fmtDflt slot ≠ .exr →
        preSlot imgsDome fmtDflt 64 true slot =
          pasteImg (blackSq 64) (resizeImg 64 (64 / 2)
            (imgsDome (ruleOf HL2_TF2_DOME_TRANSFORMS slot).1)) (0, 0)) ∧
      (∀ slot, slot ∈ HORIZ_SLOTS → fmtDflt slot ≠ .exr →
        ∀ dx dy, dx < 64 → 64 / 2 ≤ dy → dy < 64 →
          atlas.pix ((COORDS 64 slot).1 + dx) ((COORDS 64 slot).2 + dy) =
            (0, 0, 0, 255)) :=
  claim_C3_dome_amended imgsDome fmtDflt 128 64 rfl rfl (by decide) (by decide)
    (by decide) (fun f => by cases f <;> decide)

/-- C5 counterexample: the up face is a 100x4 placeholder (height below
64, so it is excluded from the valid sizes), the other five faces are
512x512, establishing unit size 512; yet the compositor does not
substitute a black square for the up slot: it tests only the width
(100 ≥ 64), resizes the white 100x4 face to 512x512 and pastes it, so
the up cell is white, not solid black.  The claim as stated, for every
placeholder face, is therefore false. -/
theorem claim_C5_counterexample :
    sizeInfer imgsThin = some (512, 512, false) ∧
    validR (imgsThin .up) = false ∧
    (stitchCore imgsThin fmtDflt).map
      (fun a => a.pix (COORDS 512 FaceId.up).1 (COORDS 512 FaceId.up).2) =
      some (255, 255, 255, 255) ∧
    (255, 255, 255, 255) ≠ ((0, 0, 0, 255) : Pixel) := by
  refine ⟨by decide, by decide, by decide, by decide⟩

/-- C5 (amended): whenever the size inference succeeds (at least one face
is 64x64 or larger) and the slot's source face has width below 64 (the
compositor's placeholder test), the compositor substitutes a fully
opaque black unitSize x unitSize square for that slot — every pixel of
the slot's cell is (0,0,0,255) — and the run completes with an atlas.
The amendment restricts the placeholder test to the width, as the code
does; a face under 64 only in height is resized instead (see the
counterexample). -/
theorem claim_C5_placeholder_amended (images : FaceId → Raster)
    (fmt : FaceId → SrcFmt) (w h : Nat) (d : Bool) (slot : FaceId)
    (hs : sizeInfer images = some (w, h, d))
    (hph : (images (ruleOf (chooseMap fmt d slot) slot).1).w < MIN_SIZE) :
    ∃ atlas, stitchCore images fmt = some atlas ∧
      ∀ dx dy, dx < (if d then h else w) → dy < (if d then h else w) →
        atlas.pix ((COORDS (if d then h else w) slot).1 + dx)
          ((COORDS (if d then h else w) slot).2 + dy) = (0, 0, 0, 255) := by
  refine ⟨compositeAtlas images fmt (if d then h else w) d,
    stitchCore_eq images fmt w h d hs, ?_⟩
  intro dx dy hdx hdy
  rw [composite_cell images fmt (if d then h else w) d slot dx dy hdx hdy]
  have hpre : preSlot images fmt (if d then h else w) d slot =
      blackSq (if d then h else w) := by
    simp only [preSlot]
    rw [if_pos hph]
  simp only [slotImage, hpre]
  exact flipStep_const _ (rotStep_const _ (fun a b => rfl)) dx dy

/-- C5 (amended) witness: the substitution evaluated with a 4x4 up face
and five 512x512 faces. -/
theorem claim_C5_witness :
    ∃ atlas, stitchCore imgsPh fmtDflt = some atlas ∧
      ∀ dx dy, dx < (if false then 512 else 512) → dy < (if false then 512 else 512) →
        atlas.pix ((COORDS (if false then 512 else 512) FaceId.up).1 + dx)
          ((COORDS (if false then 512 else 512) FaceId.up).2 + dy) = (0, 0, 0, 255) :=
  claim_C5_placeholder_amended imgsPh fmtDflt 512 512 false .up (by decide) (by decide)

/-- C6: when the resolver settles exactly five of the six required faces,
the missing face is reported by name (the sorted missing-faces list is
exactly that face), the stitching function returns failure, and no atlas
save effect occurs on the run (the output image is never written). -/
theorem claim_C6_missing_face (l : List String) (f0 : FaceId) (env : Env)
    (outPath tempDir : String)
    (hmiss : findFace l f0 = none)
    (hrest : ∀ f, f ≠ f0 → (findFace l f).isSome = true) :
    missingFaces l = [f0] ∧
    (stitchRun env (resolveMap l) outPath tempDir).ok = false ∧
    (stitchRun env (resolveMap l) outPath tempDir).atlas = none ∧
    ∀ p, Eff.saveAtlas p ∉ (stitchRun env (resolveMap l) outPath tempDir).trace := by
  have hall : ∀ f, (findFace l f).isNone = decide (f = f0) := by
    intro f
    by_cases hf : f = f0
    · subst hf
      rw [hmiss]
      simp
    · have hsome := hrest f hf
      cases hfd : findFace l f with
      | none => rw [hfd] at hsome; simp at hsome
      | some p => simp [hf]
  have hoptnot : ∀ (o : Option String), o.isSome = !o.isNone := by
    intro o; cases o <;> rfl
  have hallS : ∀ f, (findFace l f).isSome = !decide (f = f0) := by
    intro f
    rw [hoptnot, hall f]
  have hlen : (resolveMap l).length = 5 := by
    unfold resolveMap
    rw [resolveMap_length_countP l faceOrder,
      List.countP_congr (fun f _ => by rw [hallS f])]
    cases f0 <;> rfl
  have hne6 : (resolveMap l).length ≠ 6 := by
    rw [hlen]
    decide
  have hrun : stitchRun env (resolveMap l) outPath tempDir = ⟨false, [], none⟩ := by
    unfold stitchRun
    rw [if_pos hne6]
  refine ⟨?_, by rw [hrun], by rw [hrun], ?_⟩
  · have hmf : missingFaces l =
        List.filter (fun f => decide (f = f0))
          [FaceId.back, .down, .front, .left, .right, .up] := by
      unfold missingFaces
      exact List.filter_congr (fun f _ => hall f)
    rw [hmf]
    cases f0 <;> rfl
  · intro p
    rw [hrun]
    simp

/-- C6 witness: a listing that resolves all faces except down. -/
theorem claim_C6_witness :
    missingFaces files5 = [FaceId.down] ∧
    (stitchRun envOK (resolveMap files5) "skybox/out.png" "skybox").ok = false ∧
    (stitchRun envOK (resolveMap files5) "skybox/out.png" "skybox").atlas = none ∧
    ∀ p, Eff.saveAtlas p ∉
      (stitchRun envOK (resolveMap files5) "skybox/out.png" "skybox").trace :=
  claim_C6_missing_face files5 .down envOK "skybox/out.png" "skybox"
    (by decide)
    (fun f hf => by
      cases f
      case down => exact absurd rfl hf
      all_goals decide)

/-- C7 is violated by the code (code bug): in a run whose map holds a VTF
face processed before an EXR face, where the VTF converts (creating a
temporary file) and the EXR stage then fails (missing EXR support), the
function returns failure while the trace holds the temp-file creation
and no deletion attempt for it: the EXR failure exits skip the cleanup
that the VTF failure path and the success path perform. -/
theorem claim_C7_exr_leak :
    (stitchRun env7 map7 "skybox/out.png" "skybox").ok = false ∧
    (stitchRun env7 map7 "skybox/out.png" "skybox").trace =
      [Eff.createTemp "skybox/sky_bk.temp_converted.png"] ∧
    Eff.removeTemp "skybox/sky_bk.temp_converted.png" ∉
      (stitchRun env7 map7 "skybox/out.png" "skybox").trace := by
  refine ⟨by decide, by decide, by decide⟩

/-- C9 counterexample: two orderings of the same two files both matching
the up face resolve to different paths, so the resolver is not
order-independent and does not pick the lexicographically smallest
candidate from an arbitrary listing. -/
theorem claim_C9_counterexample :
    filesAB.Perm filesBA ∧
    findFace filesAB .up = some "a_up.png" ∧
    findFace filesBA .up = some "b_up.png" ∧
    findFace filesAB .up ≠ findFace filesBA .up := by
  refine ⟨by decide, by decide, by decide, by decide⟩

/-- C9 (amended): the resolver picks, within the winning extension, the
first file of the listing, so it depends on listing order (see the
counterexample); when the listing is sorted lexicographically, the
resolved path is lexicographically smallest among the files matching the
same face at the same extension. -/
theorem claim_C9_sorted_resolver (files : List String) (f : FaceId)
    (p q e : String)
    (hsort : files.Pairwise (fun a b => strLe a b = true))
    (hfind : findFace files f = some p)
    (hq : q ∈ files)
    (he : e ∈ IMAGE_EXTENSIONS)
    (hpe : matchF f e p = true)
    (hqe : matchF f e q = true) :
    strLe p q = true := by
  unfold findFace at hfind
  obtain ⟨e2, he2, hfind2⟩ := findSome?_exists _ IMAGE_EXTENSIONS p hfind
  have hpm : matchF f e2 p = true := List.find?_some hfind2
  have hpext2 : endsWithS (lowerS p) e2 = true := by
    unfold matchF at hpm
    rw [Bool.and_eq_true] at hpm
    exact hpm.1
  have hpext1 : endsWithS (lowerS p) e = true := by
    unfold matchF at hpe
    rw [Bool.and_eq_true] at hpe
    exact hpe.1
  have hee : e = e2 := imageExt_unique e e2 (lowerS p) he he2 hpext1 hpext2
  subst hee
  have hqt : q ∈ targetFiles files := mem_targetFiles_of_matchF files f e q he hq hqe
  have hsort2 : (targetFiles files).Pairwise (fun a b => strLe a b = true) :=
    hsort.filter _
  exact find?_sorted_first _ (targetFiles files) hsort2 p hfind2 q hqt hqe

/-- C9 (amended) witness: on the sorted listing the resolver's pick for
the up face precedes the other matching candidate. -/
theorem claim_C9_witness : strLe "a_up.png" "b_up.png" = true :=
  claim_C9_sorted_resolver filesAB .up "a_up.png" "b_up.png" ".png"
    (by decide) (by decide) (by decide) (by decide) (by decide) (by decide)
